import Mathlib

/-!
Verification development for the herbarium image-migration repository
(`upload_images.py`, `get_bucket_info.py`).

Strings are modelled as lists of characters (`Str`).  Python operations on
strings (`split`, `replace`, `endswith`, `urlparse(...).scheme`) are embedded
as executable functions over `Str`, translated from the CPython semantics the
source relies on.
-/

abbrev Str := List Char

/-- The literal `".jpg"` used both by the uploader's key derivation
(`upload_images.py` line 103) and the auditor's key parsing
(`get_bucket_info.py` lines 47-48). -/
def dotJpg : Str := ['.', 'j', 'p', 'g']

/-- The directory part `"images"` of the uploader's object key. -/
def imagesDir : Str := ['i', 'm', 'a', 'g', 'e', 's']

/-- Key derivation of `upload_images.py` line 103: `images/` ++ id ++ `.jpg`. -/
def imageKey (i : Str) : Str := imagesDir ++ '/' :: (i ++ dotJpg)

/-- The metadata key of `upload_images.py` line 117: `metadata/` ++ id ++ `.json`. -/
def metaKey (i : Str) : Str :=
  ['m', 'e', 't', 'a', 'd', 'a', 't', 'a', '/'] ++ i ++ ['.', 'j', 's', 'o', 'n']

/-- Python `key.split("/")`: split a character list at every `'/'`. -/
def splitSlash : Str → List Str
  | [] => [[]]
  | a :: l =>
    if a = '/' then [] :: splitSlash l
    else (a :: (splitSlash l).headI) :: (splitSlash l).tail

/-- Python `[-1]` on the non-empty result of `split`: the last segment. -/
def lastSeg : List Str → Str
  | [] => []
  | [s] => s
  | _ :: s :: rest => lastSeg (s :: rest)

/-- Python `s.replace(".jpg", "")`: delete every (left-to-right, non-overlapping)
occurrence of `".jpg"` (`get_bucket_info.py` line 48). -/
def jpgStrip : Str → Str
  | [] => []
  | [a] => [a]
  | [a, b] => [a, b]
  | [a, b, c] => [a, b, c]
  | a :: b :: c :: d :: l =>
    if a = '.' ∧ b = 'j' ∧ c = 'p' ∧ d = 'g' then jpgStrip l
    else a :: jpgStrip (b :: c :: d :: l)

/-- Whether `".jpg"` occurs as a substring. -/
def containsDotJpg : Str → Bool
  | [] => false
  | [_] => false
  | [_, _] => false
  | [_, _, _] => false
  | a :: b :: c :: d :: l =>
    decide (a = '.' ∧ b = 'j' ∧ c = 'p' ∧ d = 'g') || containsDotJpg (b :: c :: d :: l)

/-- The auditor's id extraction (`get_bucket_info.py` lines 47-49): accept a key
only if it ends with `".jpg"`, then take the segment after the last `'/'` and
delete every `".jpg"` occurrence. -/
def extractId (key : Str) : Option Str :=
  if dotJpg <:+ key then some (jpgStrip (lastSeg (splitSlash key))) else none

/-- Python `urlparse` scheme characters: letters, digits, `'+'`, `'-'`, `'.'`. -/
def schemeChar (c : Char) : Bool :=
  c.isAlphanum || c == '+' || c == '-' || c == '.'

/-- Scheme extraction of Python `urllib.parse.urlparse(url).scheme`: the part
before the first `':'`, accepted only when non-empty, starting with a letter
and made of scheme characters; lower-cased.  Empty list means "no scheme". -/
def urlScheme (u : Str) : Str :=
  match u.findIdx? (fun c => c == ':') with
  | none => []
  | some i =>
    if 0 < i ∧ (u.take i).all schemeChar ∧ u.headI.isAlpha then
      (u.take i).map Char.toLower
    else []

/-- The URL test of `upload_images.py` line 82:
`not url or url == "#" or not urlparse(url).scheme`.  `none` stands for a
missing (falsy, e.g. NaN/None) value. -/
def invalidUrl : Option Str → Bool
  | none => true
  | some u => u.isEmpty || u == ['#'] || (urlScheme u).isEmpty

/-- The Progress Ledger: the on-disk append log `uploaded.txt` (one id per
line, in append order) together with the in-memory `uploaded` set. -/
structure LedgerState where
  file : List Str
  mem : Finset Str

/-- `mark_uploaded` (`upload_images.py` lines 52-58): append the id as a new
line of the ledger file and add it to the in-memory set.  The append is
unconditional — there is no membership check before writing. -/
def mark_uploaded (st : LedgerState) (image_id : Str) : LedgerState :=
  { file := st.file ++ [image_id], mem := insert image_id st.mem }

/-- Failure classes of the network and store calls inside `process_row`'s
`try` block.  `noCredentials` models `botocore.exceptions.NoCredentialsError`;
`timeout` and `connError` are the two classes the tenacity policy retries. -/
inductive NetErr where
  | timeout
  | connError
  | httpError
  | noCredentials
  | otherErr
deriving DecidableEq

/-- The retry predicate of the tenacity decorator (`upload_images.py`
lines 64-67): only `Timeout` and `ConnectionError` are retried. -/
def retryableErr : NetErr → Bool
  | NetErr.timeout => true
  | NetErr.connError => true
  | _ => false

/-- One run of the tenacity-wrapped operation: `att` is the index of the next
attempt, the second argument the number of attempts still allowed
(`stop_after_attempt`).  `oracle n` is the outcome of attempt `n` (`none` =
success).  Returns the final outcome and the number of attempts used. -/
def retryCall (oracle : Nat → Option NetErr) : Nat → Nat → Option NetErr × Nat
  | att, 0 => (none, att)
  | att, 1 => (oracle att, att + 1)
  | att, rem + 2 =>
    match oracle att with
    | none => (none, att + 1)
    | some e =>
      if retryableErr e then retryCall oracle (att + 1) (rem + 1)
      else (some e, att + 1)

/-- The decorated `fetch` of `upload_images.py` lines 61-70:
`stop_after_attempt(4)` around one HTTP GET per attempt. -/
def fetch (oracle : Nat → Option NetErr) : Option NetErr × Nat :=
  retryCall oracle 0 4

/-- One dataset row, reduced to the fields `process_row` reads: `str(row.id)`
and `row.image_resized_60`.  The remaining metadata fields only influence the
content of the metadata upload, which is tracked by its key alone. -/
structure Row where
  id : Str
  image_resized_60 : Option Str

/-- Outcome environment for one `process_row` call: the outcome of each
statement inside the `try` block (`none` = no exception).  `fetchErr n` is the
outcome of the `n`-th GET attempt against the row's URL; the code performs
attempt `0` only. -/
structure Env where
  throttleErr : Option NetErr
  fetchErr : Nat → Option NetErr
  storeObjErr : Option NetErr
  storeMetaErr : Option NetErr

/-- Observable side effects of one `process_row` call: number of completed or
attempted rate-limiter acquisitions, number of HTTP GET calls, and the store
keys of attempted uploads. -/
structure Effects where
  rateAcquires : Nat
  fetchCalls : Nat
  puts : List Str

/-- Result of one `process_row` call: the ledger afterwards, the effects, and
whether an exception propagated out of the task (only
`NoCredentialsError` is re-raised; every other exception is swallowed). -/
structure RowResult where
  ledger : LedgerState
  effects : Effects
  fatal : Bool

/-- `process_row` (`upload_images.py` lines 72-138): skip-check against the
in-memory set, URL validation (committing invalid rows), then
throttle → GET → store object → store metadata → commit, with
`NoCredentialsError` re-raised and every other exception swallowed without
committing.  Note the GET is `requests.get` called directly (line 91), not the
retry-wrapped `fetch`, so only attempt `0` of `fetchErr` is consumed. -/
def processRow (env : Env) (st : LedgerState) (row : Row) : RowResult :=
  let image_id := row.id
  if image_id ∈ st.mem then ⟨st, ⟨0, 0, []⟩, false⟩
  else if invalidUrl row.image_resized_60 then
    ⟨mark_uploaded st image_id, ⟨0, 0, []⟩, false⟩
  else
    match env.throttleErr with
    | some e => ⟨st, ⟨1, 0, []⟩, decide (e = NetErr.noCredentials)⟩
    | none =>
      match env.fetchErr 0 with
      | some e => ⟨st, ⟨1, 1, []⟩, decide (e = NetErr.noCredentials)⟩
      | none =>
        match env.storeObjErr with
        | some e => ⟨st, ⟨1, 1, [imageKey image_id]⟩, decide (e = NetErr.noCredentials)⟩
        | none =>
          match env.storeMetaErr with
          | some e =>
            ⟨st, ⟨1, 1, [imageKey image_id, metaKey image_id]⟩,
              decide (e = NetErr.noCredentials)⟩
          | none =>
            ⟨mark_uploaded st image_id,
              ⟨1, 1, [imageKey image_id, metaKey image_id]⟩, false⟩

/-- The first exception arising in `process_row`'s `try` block, in program
order (throttle, first GET attempt, store object, store metadata). -/
def firstErr (env : Env) : Option NetErr :=
  match env.throttleErr with
  | some e => some e
  | none =>
    match env.fetchErr 0 with
    | some e => some e
    | none =>
      match env.storeObjErr with
      | some e => some e
      | none => env.storeMetaErr

/-- Ghost set of `get_bucket_info.py` line 63: ids marked uploaded that the
store does not have. -/
def missing_from_s3 (uploaded existing : Finset Str) : Finset Str :=
  uploaded \ existing

/-- Orphan set of `get_bucket_info.py` line 66: ids in the store that are not
in the source dataset. -/
def extra_in_s3 (source_ids existing : Finset Str) : Finset Str :=
  existing \ source_ids

/-- Confirmed set of `get_bucket_info.py` line 69: ids marked uploaded that
the store does have. -/
def true_uploaded (uploaded existing : Finset Str) : Finset Str :=
  uploaded ∩ existing

/-- One `list_objects_v2` response: object keys, the truncation flag, and the
continuation token (meaningful only when truncated). -/
structure S3Page where
  contents : List Str
  isTruncated : Bool
  nextContinuationToken : Str
deriving DecidableEq

/-- The ids one response page contributes to `existing`
(`get_bucket_info.py` lines 45-49). -/
def pageIdList (p : S3Page) : List Str :=
  p.contents.filterMap extractId

/-- The listing loop of `get_bucket_info.py` lines 38-54: list, collect ids,
and follow the continuation token exactly while `IsTruncated` is reported.
`store tok` is the response to a request with continuation token `tok`.  The
fuel argument bounds the truncation chain; `none` is returned only when the
chain outlives the fuel. -/
def listLoop (store : Option Str → S3Page) :
    Nat → Option Str → Finset Str → Option (Finset Str)
  | 0, _, _ => none
  | fuel + 1, tok, acc =>
    let resp := store tok
    let acc2 := acc ∪ (pageIdList resp).toFinset
    if resp.isTruncated then
      listLoop store fuel (some resp.nextContinuationToken) acc2
    else some acc2

/-- `followsChain store tok ps` holds when the responses starting from
continuation token `tok` are exactly the pages `ps`: every page but the last
reports truncation (its token leading to the next page), the last does not. -/
def followsChain (store : Option Str → S3Page) : Option Str → List S3Page → Bool
  | _, [] => false
  | tok, [p] => decide (store tok = p) && decide (p.isTruncated = false)
  | tok, p :: q :: rest =>
    decide (store tok = p) && decide (p.isTruncated = true) &&
      followsChain store (some p.nextContinuationToken) (q :: rest)

/-- Membership of a grant time in the sliding window `[a, a + 60)`. -/
def inWin (a t : Nat) : Bool :=
  decide (a ≤ t) && decide (t < a + 60)

/-- Number of rate-limiter grants inside the sliding window `[a, a + 60)`. -/
def slidingCount (log : List Nat) (a : Nat) : Nat :=
  (log.filter (inWin a)).length

/-- The grant times are chronological. -/
def nondec : List Nat → Bool
  | [] => true
  | [_] => true
  | t :: u :: l => decide (t ≤ u) && nondec (u :: l)

/-- Serialized model of `wait_for_slot` (`upload_images.py` lines 45-49) over
the `limits` library's `FixedWindowRateLimiter` on `MemoryStorage`: a window
is created by the first hit after expiry and lasts 60 time-units; `test`
passes exactly when the live window's counter is below the limit, and the
subsequent `hit` increments it.  The state is `some (expiry, count)` for the
live window; `validFrom N st log` says every grant in `log` was admitted. -/
def validFrom (N : Nat) : Option (Nat × Nat) → List Nat → Bool
  | _, [] => true
  | none, t :: rest => decide (0 < N) && validFrom N (some (t + 60, 1)) rest
  | some (e, c), t :: rest =>
    if t < e then decide (c < N) && validFrom N (some (e, c + 1)) rest
    else decide (0 < N) && validFrom N (some (t + 60, 1)) rest

/-- A full grant log admitted by the limiter started with no live window. -/
def validLog (N : Nat) (log : List Nat) : Bool :=
  validFrom N none log

/-- Bound on the grants a sliding window `[a, a + 60)` can still collect when
the limiter state is `some (e, c)`: the live window can contribute at most
`N - c` more grants, and at most one later limiter window can overlap. -/
def grantBound (N e c a : Nat) : Nat :=
  if a + 60 ≤ e then N - c
  else if a < e then (N - c) + N
  else 2 * N

/-- The empty ledger: no file lines, empty in-memory set. -/
def emptyLedger : LedgerState := ⟨[], ∅⟩

/-- A ledger already containing the id `"x"`. -/
def oneLedger : LedgerState := ⟨[['x']], {['x']}⟩

/-- The concrete valid URL `"http://a"`. -/
def httpUrl : Str := ['h', 't', 't', 'p', ':', '/', '/', 'a']

/-- A row with id `"x"` and a valid URL. -/
def rowX : Row := ⟨['x'], some httpUrl⟩

/-- A row with id `"y"` and the placeholder URL `"#"`. -/
def rowHash : Row := ⟨['y'], some ['#']⟩

/-- Environment whose first GET attempt fails with a retryable
`ConnectionError` and whose later attempts succeed. -/
def transientEnv : Env :=
  { throttleErr := none
    fetchErr := fun n => if n = 0 then some NetErr.connError else none
    storeObjErr := none
    storeMetaErr := none }

/-- Environment in which the store-object upload fails with a
non-credential error. -/
def failEnv : Env :=
  { throttleErr := none
    fetchErr := fun _ => none
    storeObjErr := some NetErr.otherErr
    storeMetaErr := none }

/-- First page of a three-page listing. -/
def pageA : S3Page := ⟨[imageKey ['A']], true, ['t', '1']⟩

/-- Second page of a three-page listing. -/
def pageB : S3Page := ⟨[imageKey ['B']], true, ['t', '2']⟩

/-- Final page of a three-page listing. -/
def pageC : S3Page := ⟨[imageKey ['C']], false, []⟩

/-- The three pages, in chain order. -/
def pages3 : List S3Page := [pageA, pageB, pageC]

/-- A store whose listing is paginated into `pages3`. -/
def store3 : Option Str → S3Page := fun tok =>
  if tok = some ['t', '1'] then pageB
  else if tok = some ['t', '2'] then pageC
  else pageA

theorem splitSlash_no_slash (l : Str) (h : '/' ∉ l) : splitSlash l = [l] := by
  induction l with
  | nil => rfl
  | cons a l ih =>
    have ha : ¬ a = '/' := fun hc => h (hc ▸ List.mem_cons_self a l)
    have hl : '/' ∉ l := fun hc => h (List.mem_cons_of_mem a hc)
    simp [splitSlash, ha, ih hl]

theorem splitSlash_append (xs : Str) (h : '/' ∉ xs) (ys : Str) :
    splitSlash (xs ++ '/' :: ys) = xs :: splitSlash ys := by
  induction xs with
  | nil => simp [splitSlash]
  | cons a xs ih =>
    have ha : ¬ a = '/' := fun hc => h (hc ▸ List.mem_cons_self a xs)
    have hxs : '/' ∉ xs := fun hc => h (List.mem_cons_of_mem a hc)
    simp [splitSlash, ha, ih hxs]

theorem jpgStrip_append (i : Str) (h : containsDotJpg i = false) :
    jpgStrip (i ++ dotJpg) = i := by
  induction i with
  | nil => rfl
  | cons a s ih =>
    match s, h with
    | [], _ =>
      show jpgStrip [a, '.', 'j', 'p', 'g'] = [a]
      simp [jpgStrip]
    | [b], _ =>
      show jpgStrip [a, b, '.', 'j', 'p', 'g'] = [a, b]
      simp [jpgStrip]
    | [b, c], _ =>
      show jpgStrip [a, b, c, '.', 'j', 'p', 'g'] = [a, b, c]
      simp [jpgStrip]
    | b :: c :: d :: t, h =>
      rw [containsDotJpg, Bool.or_eq_false_iff, decide_eq_false_iff_not] at h
      have hcond : ¬ (a = '.' ∧ b = 'j' ∧ c = 'p' ∧ d = 'g') := h.1
      have htail : jpgStrip ((b :: c :: d :: t) ++ dotJpg) = b :: c :: d :: t :=
        ih h.2
      show jpgStrip (a :: b :: c :: d :: (t ++ dotJpg)) = a :: b :: c :: d :: t
      rw [jpgStrip, if_neg hcond]
      exact congrArg (a :: ·) htail

/-- C10: for every id free of `'/'` and of the substring `".jpg"`, the auditor's
extraction of an id from a store key is a left inverse of the uploader's key
derivation, so an uploaded id is found again by the audit. -/
theorem key_extraction_left_inverse (i : Str)
    (h1 : '/' ∉ i) (h2 : containsDotJpg i = false) :
    extractId (imageKey i) = some i := by
  have hsuf : dotJpg <:+ imageKey i := by
    refine ⟨imagesDir ++ '/' :: i, ?_⟩
    simp [imageKey]
  have hid : '/' ∉ i ++ dotJpg := by
    rw [List.mem_append]
    rintro (hc | hc)
    · exact h1 hc
    · exact absurd hc (by decide)
  have hdir : '/' ∉ imagesDir := by decide
  have hkey : splitSlash (imageKey i) = [imagesDir, i ++ dotJpg] := by
    rw [imageKey, splitSlash_append imagesDir hdir, splitSlash_no_slash _ hid]
  rw [extractId, if_pos hsuf, hkey]
  show some (jpgStrip (i ++ dotJpg)) = some i
  rw [jpgStrip_append i h2]

/-- Witness for C10 at the concrete id `"ab"`. -/
theorem key_extraction_left_inverse_witness :
    ('/' ∉ (['a', 'b'] : Str)) ∧ containsDotJpg ['a', 'b'] = false ∧
      extractId (imageKey ['a', 'b']) = some ['a', 'b'] :=
  ⟨by decide, by decide, key_extraction_left_inverse ['a', 'b'] (by decide) (by decide)⟩

/-- C1: the code defines the retry-wrapped `fetch` but `process_row` performs
its GET directly, bypassing the Retry Policy.  At an input whose first GET
attempt fails with a retryable `ConnectionError`, the policy would succeed on
the second attempt, while `process_row` makes exactly one GET call, fails the
item and leaves it uncommitted. -/
theorem fetch_retry_policy_bypassed :
    fetch transientEnv.fetchErr = (none, 2) ∧
    processRow transientEnv emptyLedger rowX = ⟨emptyLedger, ⟨1, 1, []⟩, false⟩ :=
  ⟨rfl, rfl⟩

/-- C3: when the first exception of the try block is `NoCredentialsError` it
propagates out of the task, and any other exception is swallowed; in both
cases the ledger (file and in-memory set) is unchanged. -/
theorem task_failure_not_committed (env : Env) (st : LedgerState) (row : Row)
    (e : NetErr) (h1 : row.id ∉ st.mem)
    (h2 : invalidUrl row.image_resized_60 = false)
    (h3 : firstErr env = some e) :
    (processRow env st row).ledger = st ∧
    ((processRow env st row).fatal = true ↔ e = NetErr.noCredentials) := by
  unfold firstErr at h3
  unfold processRow
  rw [if_neg h1, h2, if_neg Bool.false_ne_true]
  rcases hte : env.throttleErr with _ | e1
  case some =>
    rw [hte] at h3
    obtain rfl : e1 = e := Option.some.inj h3
    exact ⟨rfl, by simp⟩
  rw [hte] at h3
  rcases hfe : env.fetchErr 0 with _ | e1
  case some =>
    rw [hfe] at h3
    obtain rfl : e1 = e := Option.some.inj h3
    exact ⟨rfl, by simp⟩
  rw [hfe] at h3
  rcases hoe : env.storeObjErr with _ | e1
  case some =>
    rw [hoe] at h3
    obtain rfl : e1 = e := Option.some.inj h3
    exact ⟨rfl, by simp⟩
  rw [hoe] at h3
  rcases hme : env.storeMetaErr with _ | e1
  case some =>
    rw [hme] at h3
    obtain rfl : e1 = e := Option.some.inj h3
    exact ⟨rfl, by simp⟩
  rw [hme] at h3
  exact Option.noConfusion h3

/-- Witness for C3: a store-object failure with a non-credential error leaves
the ledger unchanged and does not propagate. -/
theorem task_failure_not_committed_witness :
    (processRow failEnv emptyLedger rowX).ledger = emptyLedger ∧
    ((processRow failEnv emptyLedger rowX).fatal = true ↔
      NetErr.otherErr = NetErr.noCredentials) :=
  task_failure_not_committed failEnv emptyLedger rowX NetErr.otherErr
    (by decide) (by decide) rfl

/-- C4: a pending row with a missing, placeholder or scheme-less URL is
committed to the ledger and the task ends with no rate-limiter acquisition,
no GET and no store write. -/
theorem invalid_url_committed_offline (env : Env) (st : LedgerState) (row : Row)
    (h1 : row.id ∉ st.mem) (h2 : invalidUrl row.image_resized_60 = true) :
    processRow env st row = ⟨mark_uploaded st row.id, ⟨0, 0, []⟩, false⟩ := by
  unfold processRow
  rw [if_neg h1, h2, if_pos rfl]

/-- Witness for C4 at the placeholder URL `"#"`. -/
theorem invalid_url_committed_offline_witness :
    processRow failEnv emptyLedger rowHash =
      ⟨mark_uploaded emptyLedger rowHash.id, ⟨0, 0, []⟩, false⟩ :=
  invalid_url_committed_offline failEnv emptyLedger rowHash (by decide) (by decide)

/-- C5: a row whose id is already in the in-memory ledger set returns
immediately: ledger unchanged, no acquisition, no GET, no store write, no
propagated exception. -/
theorem ledger_skip_no_side_effects (env : Env) (st : LedgerState) (row : Row)
    (h : row.id ∈ st.mem) :
    processRow env st row = ⟨st, ⟨0, 0, []⟩, false⟩ := by
  unfold processRow
  rw [if_pos h]

/-- Witness for C5 at a ledger already containing the row's id. -/
theorem ledger_skip_no_side_effects_witness :
    processRow failEnv oneLedger rowX = ⟨oneLedger, ⟨0, 0, []⟩, false⟩ :=
  ledger_skip_no_side_effects failEnv oneLedger rowX (by decide)

/-- C6 counterexample: committing an id already present appends a duplicate
line, so the on-disk ledger file contents do not equal what they were before
the call. -/
theorem ledger_commit_counterexample :
    ¬ (mark_uploaded oneLedger ['x']).file = oneLedger.file := by
  decide

/-- C6 amended: committing an id already present in the ledger is no error and
leaves the in-memory set and the set of ids represented by the file unchanged,
though a duplicate line is appended to the file. -/
theorem ledger_commit_amended (st : LedgerState) (i : Str)
    (h1 : i ∈ st.mem) (h2 : i ∈ st.file) :
    (mark_uploaded st i).mem = st.mem ∧
    (∀ x, x ∈ (mark_uploaded st i).file ↔ x ∈ st.file) := by
  refine ⟨Finset.insert_eq_self.mpr h1, fun x => ?_⟩
  simp only [mark_uploaded, List.mem_append, List.mem_singleton]
  constructor
  · rintro (hx | rfl)
    · exact hx
    · exact h2
  · exact fun hx => Or.inl hx

/-- Witness for the amended C6 at a ledger already containing `"x"`. -/
theorem ledger_commit_amended_witness :
    (mark_uploaded oneLedger ['x']).mem = oneLedger.mem ∧
    (∀ x, x ∈ (mark_uploaded oneLedger ['x']).file ↔ x ∈ oneLedger.file) :=
  ledger_commit_amended oneLedger ['x'] (by decide) (by decide)

/-- C2 counterexample: on source ids A,B,C and live store A,C the code's
orphan set `extra_in_s3 = existing - source_ids` is empty, not the set
containing C claimed by the spec's example (C belongs to the source dataset,
so it is no orphan). -/
theorem audit_example_counterexample :
    extra_in_s3 {['A'], ['B'], ['C']} {['A'], ['C']} = ∅ ∧
    ¬ extra_in_s3 {['A'], ['B'], ['C']} {['A'], ['C']} = {['C']} := by
  decide

/-- C2 amended: the auditor computes confirmed = ledger ∩ store,
ghost = ledger minus store, orphan = store minus source; on source ids A,B,C,
ledger A,B and live store A,C it yields confirmed A, ghost B and an empty
orphan set. -/
theorem audit_set_operations :
    (∀ source_ids uploaded existing : Finset Str,
      true_uploaded uploaded existing = uploaded ∩ existing ∧
      missing_from_s3 uploaded existing = uploaded \ existing ∧
      extra_in_s3 source_ids existing = existing \ source_ids) ∧
    true_uploaded {['A'], ['B']} {['A'], ['C']} = {['A']} ∧
    missing_from_s3 {['A'], ['B']} {['A'], ['C']} = {['B']} ∧
    extra_in_s3 {['A'], ['B'], ['C']} {['A'], ['C']} = ∅ :=
  ⟨fun _ _ _ => ⟨rfl, rfl, rfl⟩, by decide, by decide, by decide⟩

/-- C7 counterexample: with source ids empty, ledger A and live store A, the
confirmed and orphan sets both contain A, so the three result sets are not
pairwise disjoint for all inputs. -/
theorem audit_disjoint_counterexample :
    ¬ true_uploaded {['A']} {['A']} ∩ extra_in_s3 (∅ : Finset Str) {['A']} = ∅ := by
  decide

/-- C7 amended: confirmed and ghost are always disjoint, and ghost and orphan
are always disjoint; when every ledger id comes from the source dataset
(ledger ⊆ source, the intended operating condition), confirmed and orphan are
disjoint too, so the three sets are pairwise disjoint. -/
theorem audit_disjoint_amended (s l v : Finset Str) (h : l ⊆ s) :
    true_uploaded l v ∩ missing_from_s3 l v = ∅ ∧
    true_uploaded l v ∩ extra_in_s3 s v = ∅ ∧
    missing_from_s3 l v ∩ extra_in_s3 s v = ∅ := by
  refine ⟨?_, ?_, ?_⟩
  · ext x
    simp only [true_uploaded, missing_from_s3, Finset.mem_inter, Finset.mem_sdiff,
      Finset.not_mem_empty, iff_false]
    rintro ⟨⟨-, hv⟩, -, hnv⟩
    exact hnv hv
  · ext x
    simp only [true_uploaded, extra_in_s3, Finset.mem_inter, Finset.mem_sdiff,
      Finset.not_mem_empty, iff_false]
    rintro ⟨⟨hl, -⟩, -, hns⟩
    exact hns (h hl)
  · ext x
    simp only [missing_from_s3, extra_in_s3, Finset.mem_inter, Finset.mem_sdiff,
      Finset.not_mem_empty, iff_false]
    rintro ⟨⟨-, hnv⟩, hv, -⟩
    exact hnv hv

/-- Witness for the amended C7 at source A,B,C, ledger A,B, store A,C. -/
theorem audit_disjoint_amended_witness :
    true_uploaded {['A'], ['B']} {['A'], ['C']} ∩
        missing_from_s3 {['A'], ['B']} {['A'], ['C']} = ∅ ∧
    true_uploaded {['A'], ['B']} {['A'], ['C']} ∩
        extra_in_s3 {['A'], ['B'], ['C']} {['A'], ['C']} = ∅ ∧
    missing_from_s3 {['A'], ['B']} {['A'], ['C']} ∩
        extra_in_s3 {['A'], ['B'], ['C']} {['A'], ['C']} = ∅ :=
  audit_disjoint_amended {['A'], ['B'], ['C']} {['A'], ['B']} {['A'], ['C']}
    (by decide)

theorem listLoop_succ (store : Option Str → S3Page) (fuel : Nat)
    (tok : Option Str) (acc : Finset Str) :
    listLoop store (fuel + 1) tok acc =
      if (store tok).isTruncated then
        listLoop store fuel (some (store tok).nextContinuationToken)
          (acc ∪ (pageIdList (store tok)).toFinset)
      else some (acc ∪ (pageIdList (store tok)).toFinset) := rfl

/-- C8: whenever the responses from a continuation token form a finite chain
`ps` (each page but the last truncated, tokens followed in order, the last not
truncated), the listing loop terminates within `ps.length` requests and
returns the accumulator extended with the extracted ids of every page. -/
theorem auditor_listing_drains (store : Option Str → S3Page) (ps : List S3Page) :
    ∀ (tok : Option Str) (acc : Finset Str), followsChain store tok ps = true →
      listLoop store ps.length tok acc =
        some (acc ∪ ((ps.map pageIdList).flatten).toFinset) := by
  induction ps with
  | nil => intro tok acc h; exact absurd h (by simp [followsChain])
  | cons p rest ih =>
    intro tok acc h
    cases rest with
    | nil =>
      rw [followsChain, Bool.and_eq_true, decide_eq_true_eq, decide_eq_true_eq] at h
      obtain ⟨h1, h2⟩ := h
      rw [List.length_cons, List.length_nil, listLoop_succ, h1, h2, if_neg Bool.false_ne_true]
      simp
    | cons q rest2 =>
      rw [followsChain, Bool.and_eq_true, Bool.and_eq_true,
        decide_eq_true_eq, decide_eq_true_eq] at h
      obtain ⟨⟨h1, h2⟩, h3⟩ := h
      rw [List.length_cons, listLoop_succ, h1, h2, if_pos rfl,
        ih (some p.nextContinuationToken) (acc ∪ (pageIdList p).toFinset) h3]
      simp [Finset.union_assoc]

/-- Witness for C8: a three-page simulated listing is fully drained, all
continuation tokens followed, before the id set is produced. -/
theorem auditor_listing_drains_witness :
    listLoop store3 pages3.length none ∅ =
      some ((∅ : Finset Str) ∪ ((pages3.map pageIdList).flatten).toFinset) :=
  auditor_listing_drains store3 pages3 none ∅ (by decide)

theorem inWin_iff (a t : Nat) : inWin a t = true ↔ a ≤ t ∧ t < a + 60 := by
  simp [inWin]

theorem slidingCount_cons (a t : Nat) (l : List Nat) :
    slidingCount (t :: l) a =
      (if a ≤ t ∧ t < a + 60 then 1 else 0) + slidingCount l a := by
  simp only [slidingCount, List.filter_cons]
  by_cases hw : inWin a t = true
  · rw [if_pos hw, if_pos ((inWin_iff a t).mp hw), List.length_cons]
    omega
  · rw [if_neg hw, if_neg (fun hc => hw ((inWin_iff a t).mpr hc))]
    omega

theorem slidingCount_zero_of_ge (a : Nat) (l : List Nat)
    (h : ∀ x ∈ l, a + 60 ≤ x) : slidingCount l a = 0 := by
  unfold slidingCount
  rw [List.length_eq_zero, List.filter_eq_nil_iff]
  intro x hx
  have hax := h x hx
  simp only [inWin, Bool.and_eq_true, decide_eq_true_eq, not_and]
  omega

theorem nondec_tail (t : Nat) (l : List Nat) (h : nondec (t :: l) = true) :
    nondec l = true := by
  cases l with
  | nil => rfl
  | cons u l2 =>
    rw [nondec, Bool.and_eq_true] at h
    exact h.2

theorem nondec_head_le (l : List Nat) :
    ∀ t, nondec (t :: l) = true → ∀ x ∈ l, t ≤ x := by
  induction l with
  | nil => intro t _ x hx; exact absurd hx (by simp)
  | cons u l2 ih =>
    intro t h x hx
    rw [nondec, Bool.and_eq_true, decide_eq_true_eq] at h
    rcases List.mem_cons.mp hx with rfl | hx2
    · exact h.1
    · exact le_trans h.1 (ih u h.2 x hx2)

theorem validFrom_sliding (N a : Nat) :
    ∀ (log : List Nat) (e c : Nat), c ≤ N →
      validFrom N (some (e, c)) log = true → nondec log = true →
      slidingCount log a ≤ grantBound N e c a := by
  intro log
  induction log with
  | nil => intro e c _ _ _; exact Nat.zero_le _
  | cons t rest ih =>
    intro e c hc hv hs
    rw [slidingCount_cons]
    have hrest : nondec rest = true := nondec_tail t rest hs
    simp only [validFrom] at hv
    by_cases hte : t < e
    · rw [if_pos hte, Bool.and_eq_true, decide_eq_true_eq] at hv
      obtain ⟨hcN, hv2⟩ := hv
      have hbound := ih e (c + 1) (by omega) hv2 hrest
      unfold grantBound at hbound ⊢
      split_ifs at hbound ⊢ <;> omega
    · rw [if_neg hte, Bool.and_eq_true, decide_eq_true_eq] at hv
      obtain ⟨hN, hv2⟩ := hv
      by_cases ha : a + 60 ≤ e
      · have hz : slidingCount rest a = 0 := by
          refine slidingCount_zero_of_ge a rest fun x hx => ?_
          have hle := nondec_head_le rest t hs x hx
          omega
        rw [hz]
        unfold grantBound
        split_ifs <;> omega
      · have hbound := ih (t + 60) 1 (by omega) hv2 hrest
        unfold grantBound at hbound ⊢
        split_ifs at hbound ⊢ <;> omega

/-- C9 counterexample: the serialized fixed-window limiter admits the grant
times 59, 60, 119, 119 at limit N = 2 (windows [59,119) and [119,179)), yet
the sliding one-minute window starting at 60 contains 3 grants, exceeding N. -/
theorem rate_sliding_counterexample :
    validLog 2 [59, 60, 119, 119] = true ∧ nondec [59, 60, 119, 119] = true ∧
    ¬ slidingCount [59, 60, 119, 119] 60 ≤ 2 := by
  decide

/-- C9 amended: for serialized grants admitted by the fixed-window limiter, a
window maintained by the limiter holds at most N grants, so any sliding
one-minute window contains at most 2·N grants (two limiter windows can
overlap it); the original bound N per sliding window does not hold.  The
model's acquire has no failure outcome — it can only postpone a grant. -/
theorem rate_fixed_window_amended (N : Nat) (log : List Nat)
    (h1 : validLog N log = true) (h2 : nondec log = true) (a : Nat) :
    slidingCount log a ≤ 2 * N := by
  cases log with
  | nil => exact Nat.zero_le _
  | cons t rest =>
    unfold validLog at h1
    simp only [validFrom, Bool.and_eq_true, decide_eq_true_eq] at h1
    obtain ⟨hN, hv⟩ := h1
    have hrest := nondec_tail t rest h2
    have hbound := validFrom_sliding N a rest (t + 60) 1 (by omega) hv hrest
    rw [slidingCount_cons]
    unfold grantBound at hbound
    split_ifs at hbound ⊢ <;> omega

/-- Witness for the amended C9 at N = 2 and grants 0, 10, 60, 70. -/
theorem rate_fixed_window_amended_witness :
    validLog 2 [0, 10, 60, 70] = true ∧ nondec [0, 10, 60, 70] = true ∧
    slidingCount [0, 10, 60, 70] 0 ≤ 2 * 2 :=
  ⟨by decide, by decide,
    rate_fixed_window_amended 2 [0, 10, 60, 70] (by decide) (by decide) 0⟩
